import Mathlib

/-!
Verification development for the LITE JSON-ingestion pipeline
(`app/ingestion.py`, `app/field_filters.py`, `app/utils/ingestion.py`,
`app/utils/db_utils.py`).  Python values parsed from JSON are modelled by
`PyVal`; Python dictionaries by insertion-ordered association lists; the
database insert operation by a boolean oracle indexed by the position of
the insert attempt.  A Python exception escaping a function is modelled by
`Option.none` / `Except.error`.
-/

set_option maxHeartbeats 1000000

/-! ## Python string primitives -/

/-- Whitespace characters recognised by Python `str.split()` / `str.strip()`. -/
def pyIsSpace (c : Char) : Bool :=
  c = ' ' || c = '\t' || c = '\n' || c = '\r' || c = '\x0b' || c = '\x0c'

/-- Python `str.strip()` on a character list. -/
def pyStripList (l : List Char) : List Char :=
  ((l.dropWhile pyIsSpace).reverse.dropWhile pyIsSpace).reverse

/-- Python `str.strip()`. -/
def pyStrip (s : String) : String :=
  String.mk (pyStripList s.toList)

/-- Split a character list at every character satisfying `p`, keeping empty
pieces (the splitting behaviour of Python `s.split(sep)`), by structural
recursion. -/
def splitPredList (p : Char → Bool) : List Char → List (List Char)
  | [] => [[]]
  | d :: rest =>
      let r := splitPredList p rest
      if p d then [] :: r
      else
        match r with
        | [] => [[d]]
        | x :: xs => (d :: x) :: xs

/-- Python `str.split()` with no argument: split on whitespace runs,
discarding empty pieces. -/
def pySplitWs (s : String) : List String :=
  ((splitPredList pyIsSpace s.toList).map String.mk).filter (fun t => t ≠ "")

/-- Python `s.split(sep)` for a single-character separator `sep`. -/
def pySplitOnChar (s : String) (c : Char) : List String :=
  (splitPredList (fun d => d = c) s.toList).map String.mk

/-- Python `s.rstrip(c)` for a single-character argument: drop all trailing
occurrences of `c`. -/
def pyRstripChar (s : String) (c : Char) : String :=
  String.mk ((s.toList.reverse.dropWhile (fun d => d = c)).reverse)

/-- Python `c in s` for a single character `c`. -/
def pyContainsChar (s : String) (c : Char) : Bool :=
  s.toList.contains c

/-- Python `s.replace(old, "")` for a single-character `old`: remove every
occurrence. -/
def pyRemoveChar (s : String) (c : Char) : String :=
  String.mk (s.toList.filter (fun d => d ≠ c))

/-- Python `s.isdigit()` restricted to ASCII digits (the only digits the
parsed command output contains). -/
def pyIsDigitStr (s : String) : Bool :=
  s ≠ "" && s.toList.all (fun c => c.isDigit)

/-- Numeric value of an ASCII digit string, as used by Python `int(s)` on
inputs guarded by `s.isdigit()`. -/
def pyStrToNat (s : String) : Nat :=
  s.toList.foldl (fun acc c => acc * 10 + (c.toNat - 48)) 0

/-- Python `s[:n]` (string slice from the start). -/
def pySliceTo (s : String) (n : Nat) : String :=
  String.mk (s.toList.take n)

/-- Python `s[:-1]` on a nonempty string. -/
def pyDropLast (s : String) : String :=
  String.mk (s.toList.dropLast)

/-- Python `sep.join(parts)`. -/
def pyJoin (sep : String) : List String → String
  | [] => ""
  | [x] => x
  | x :: xs => x ++ sep ++ pyJoin sep xs

/-- Python `s.startswith(pre)`. -/
def pyStartsWith (s pre : String) : Bool :=
  List.isPrefixOf pre.toList s.toList

/-- Python `s.endswith(suf)`. -/
def pyEndsWith (s suf : String) : Bool :=
  List.isPrefixOf suf.toList.reverse s.toList.reverse

/-- The line list `stdout_content.strip().split('\n')` used by
`parse_raw_stdout_data`. -/
def pyLines (s : String) : List String :=
  (splitPredList (fun c => c = '\n') (pyStrip s).toList).map String.mk

/-! ## Python values and dictionaries -/

/-- A Python value as it can occur in a record flowing through the ingestion
pipeline: the JSON data types plus `other`, which stands for a non-JSON
object (such as the `datetime` the orchestrator adds) carrying its `str()`
representation. -/
inductive PyVal where
  | none
  | bool (b : Bool)
  | int (n : Int)
  | float (q : Rat)
  | str (s : String)
  | list (xs : List PyVal)
  | dict (xs : List (String × PyVal))
  | other (rep : String)

/-- A Python dictionary with string keys, in insertion order. -/
abbrev PyRecord := List (String × PyVal)

/-- First-match association-list lookup: Python `d[k]` / `d.get(k)`. -/
def alistGet {α : Type} : List (String × α) → String → Option α
  | [], _ => Option.none
  | (k, v) :: rest, key => if k = key then some v else alistGet rest key

/-- Python `d[k] = v` on an insertion-ordered dictionary: update in place if
the key exists, else append. -/
def dictSet {α : Type} : List (String × α) → String → α → List (String × α)
  | [], k, v => [(k, v)]
  | (k', v') :: rest, k, v =>
      if k' = k then (k', v) :: rest else (k', v') :: dictSet rest k v

/-- Python `d.update(us)` where `us` is a dict literal iterated in order. -/
def dictUpdate (d : PyRecord) (us : List (String × PyVal)) : PyRecord :=
  us.foldl (fun acc kv => dictSet acc kv.1 kv.2) d

/-- Python truthiness of a value (`bool(v)`). -/
def pyTruthy : PyVal → Bool
  | .none => false
  | .bool b => b
  | .int n => n ≠ 0
  | .float q => q ≠ 0
  | .str s => s ≠ ""
  | .list xs => !xs.isEmpty
  | .dict xs => !xs.isEmpty
  | .other _ => true

/-! ## json.dumps

Models CPython `json.dumps` with its default separators `", "` and `": "`
and default ASCII escaping of the characters appearing in this repository's
data.  `Option.none` models the `TypeError` raised on a non-serialisable
object. -/

/-- JSON escaping of one character (quote, backslash and the common control
characters; other characters are emitted verbatim). -/
def jsonEscapeChar (c : Char) : String :=
  if c = '"' then "\\\""
  else if c = '\\' then "\\\\"
  else if c = '\n' then "\\n"
  else if c = '\t' then "\\t"
  else if c = '\r' then "\\r"
  else String.singleton c

/-- JSON escaping of a string body. -/
def jsonEscape (s : String) : String :=
  String.join (s.toList.map jsonEscapeChar)

mutual

/-- `json.dumps` on a value; `Option.none` models the raised `TypeError`. -/
def jsonDumps : PyVal → Option String
  | .none => some "null"
  | .bool true => some "true"
  | .bool false => some "false"
  | .int n => some (toString n)
  | .float q => some (toString q)
  | .str s => some ("\"" ++ jsonEscape s ++ "\"")
  | .list xs =>
      match jsonDumpsList xs with
      | some parts => some ("[" ++ pyJoin ", " parts ++ "]")
      | Option.none => Option.none
  | .dict xs =>
      match jsonDumpsDict xs with
      | some parts => some ("\x7b" ++ pyJoin ", " parts ++ "\x7d")
      | Option.none => Option.none
  | .other _ => Option.none

/-- `json.dumps` of every element of a list. -/
def jsonDumpsList : List PyVal → Option (List String)
  | [] => some []
  | v :: vs =>
      match jsonDumps v, jsonDumpsList vs with
      | some s, some rest => some (s :: rest)
      | _, _ => Option.none

/-- `json.dumps` of every `"key": value` pair of an object. -/
def jsonDumpsDict : List (String × PyVal) → Option (List String)
  | [] => some []
  | (k, v) :: kvs =>
      match jsonDumps v, jsonDumpsDict kvs with
      | some s, some rest => some (("\"" ++ jsonEscape k ++ "\": " ++ s) :: rest)
      | _, _ => Option.none

end

/-! ## Field filter registry (`app/field_filters.py`) -/

/-- One registry entry: the field list (the `fields` / `allowed_fields` key,
which `filter_record_fields` reads interchangeably) and the `raw_data` flag
(absent entries default to `False`). -/
structure FilterEntry where
  fields : List String
  rawData : Bool

/-- The `FIELD_FILTERS` table of `app/field_filters.py`, in source order. -/
def FIELD_FILTERS : List (String × FilterEntry) := [
  ("arpCache", ⟨["ip_address", "mac_address", "interface"], false⟩),
  ("arpTableRaw", ⟨["address", "hwtype", "hwaddress", "flags", "mask", "iface"], true⟩),
  ("audit", ⟨["timestamp", "event_type", "pid", "uid", "gid", "executable", "command", "result"], false⟩),
  ("blockDevices", ⟨["device_name", "size_bytes", "device_type", "mount_point", "filesystem", "model"], true⟩),
  ("boot", ⟨["kernel_version", "boot_time", "uptime_seconds", "load_average"], false⟩),
  ("browsingHistory_data", ⟨["url", "title", "visit_count", "last_visit_time", "typed_count"], false⟩),
  ("collection_metadata", ⟨["collection_timestamp", "hostname", "collection_directory", "total_sections", "total_files", "total_directories"], false⟩),
  ("connectionTracking", ⟨["protocol", "src_ip", "src_port", "dst_ip", "dst_port", "state", "timeout"], true⟩),
  ("cpuInformation", ⟨["processor_id", "vendor_id", "cpu_family", "model", "model_name", "stepping", "microcode", "cpu_mhz", "cache_size", "physical_id", "siblings", "core_id", "cpu_cores", "apicid", "initial_apicid", "fpu", "fpu_exception", "cpuid_level", "wp", "flags", "bugs", "bogomips", "clflush_size", "cache_alignment", "address_sizes", "power_management"], false⟩),
  ("criticalFiles", ⟨["file_path", "permissions", "owner", "group", "size", "modified_time", "file_type", "exists"], false⟩),
  ("development_programming", ⟨["language", "framework", "version", "project_path", "config_files"], false⟩),
  ("disk_usage", ⟨["filesystem", "size_bytes", "used_bytes", "available_bytes", "use_percent", "mounted_on"], true⟩),
  ("dnsCache", ⟨["ip", "hostname"], false⟩),
  ("downloads_data", ⟨["filePath", "sourceUrl", "title", "downloadDate", "annotationType", "sourceProfile"], false⟩),
  ("dpkgLogsMetadata", ⟨["file_path", "file_size", "is_compressed", "processed", "install_count", "upgrade_count", "remove_count"], false⟩),
  ("dpkgPackages", ⟨["name", "version", "architecture", "description", "status"], false⟩),
  ("environmentVariables", ⟨["variables"], false⟩),
  ("extensions_data", ⟨["id", "name", "version", "type", "enabled", "installDate", "updateDate", "description", "permissions", "origins"], false⟩),
  ("fdisk", ⟨["disk_path", "disk_size", "disk_model", "sector_size", "disklabel_type", "disk_identifier", "device", "boot_flag", "start_sector", "end_sector", "sectors", "size", "partition_id", "partition_type"], true⟩),
  ("filesystemStats", ⟨["filesystem", "inodes", "iused", "ifree", "iuse_percent", "mounted_on"], true⟩),
  ("filesystemTypes", ⟨["filesystem_type", "nodev"], true⟩),
  ("firewallRules", ⟨["iptables", "ip6tables", "ufw"], false⟩),
  ("groupAccounts", ⟨["groupName", "password", "gid", "members", "groupType"], false⟩),
  ("homeDirectories", ⟨["username", "uid", "gid", "permissions", "links", "owner", "group", "size", "month", "day", "time", "directoryName", "fullPath", "isUserDirectory", "shell", "exists", "diskUsage"], false⟩),
  ("installRecords", ⟨["timestamp", "action", "package", "package_name", "architecture", "source_file", "version"], false⟩),
  ("kern", ⟨["source_file", "timestamp", "hostname", "subsystem", "log_level", "event_type", "message"], false⟩),
  ("kernel_modules", ⟨["name", "size", "used_count", "used_by"], false⟩)]

/-- Registry lookup for an entry. -/
def fieldFilterEntry (artifactType : String) : Option FilterEntry :=
  alistGet FIELD_FILTERS artifactType

/-- `get_allowed_fields` of `app/field_filters.py`. -/
def getAllowedFields (artifactType : String) : Option (List String) :=
  (fieldFilterEntry artifactType).map FilterEntry.fields

/-- `requires_raw_data_parsing` of `app/field_filters.py`. -/
def requiresRawDataParsing (artifactType : String) : Bool :=
  match fieldFilterEntry artifactType with
  | some e => e.rawData
  | Option.none => false

/-- `filter_record_fields` of `app/field_filters.py`: with no registry entry
return the record unchanged; otherwise build a fresh dict holding, in allowed
order, the allowed fields present in the record. -/
def filterRecordFields (record : PyRecord) (artifactType : String) : PyRecord :=
  match fieldFilterEntry artifactType with
  | Option.none => record
  | some e =>
      e.fields.foldl
        (fun acc f =>
          match alistGet record f with
          | some v => dictSet acc f v
          | Option.none => acc)
        []

/-! ## Record normalizer (`_prepare_record_for_insertion`) -/

/-- The per-value branch of `_prepare_record_for_insertion`; `Option.none`
models an exception escaping from `json.dumps`. -/
def prepareValue : PyVal → Option PyVal
  | .none => some .none
  | .dict xs => (jsonDumps (.dict xs)).map .str
  | .list xs => (jsonDumps (.list xs)).map .str
  | .bool b => some (.bool b)
  | .int n => some (.int n)
  | .float q => some (.float q)
  | .str s => some (.str (if s.length > 10000 then pySliceTo s 10000 else s))
  | .other rep => some (.str rep)

/-- One key/value pair of the loop body of `_prepare_record_for_insertion`
(`prepared[key] = ...`). -/
def prepEntry (kv : String × PyVal) : Option (String × PyVal) :=
  (prepareValue kv.2).map (fun v => (kv.1, v))

/-- The `for key, value in record.items()` loop of
`_prepare_record_for_insertion`: build the prepared record entry by entry,
aborting when a value raises. -/
def prepLoop : PyRecord → Option PyRecord
  | [] => some []
  | kv :: rest =>
      match prepEntry kv, prepLoop rest with
      | some e, some es => some (e :: es)
      | _, _ => Option.none

/-- `_prepare_record_for_insertion(record, artifact_type)`: apply the field
filter when a truthy artifact type is given, then normalise every value.
`artifactType = Option.none` models Python's default argument `None`;
`Option.none` as a result models a raised exception. -/
def prepareRecordForInsertion (record : PyRecord) (artifactType : Option String) :
    Option PyRecord :=
  let filtered :=
    match artifactType with
    | some t => if t ≠ "" then filterRecordFields record t else record
    | Option.none => record
  prepLoop filtered

/-! ## Raw-text parsers (`parse_raw_stdout_data`) -/

/-- Numeric value of a digit list. -/
def digitsToNat (l : List Char) : Nat :=
  l.foldl (fun acc c => acc * 10 + (c.toNat - 48)) 0

/-- CPython `float(s)` on the plain decimal literals found in `lsblk` size
tokens: optional surrounding whitespace, optional sign, digits with an
optional fractional part.  `Option.none` models the raised `ValueError`
(exponent / infinity forms, which never occur in size tokens, are treated
as unparseable). -/
def pyFloatParse (s : String) : Option Rat :=
  let l := pyStripList s.toList
  let signed : Int × List Char :=
    match l with
    | '+' :: rest => (1, rest)
    | '-' :: rest => (-1, rest)
    | _ => (1, l)
  match splitPredList (fun d => d = '.') signed.2 with
  | [intPart] =>
      if !intPart.isEmpty && intPart.all Char.isDigit then
        some ((signed.1 : Rat) * (digitsToNat intPart : Rat))
      else Option.none
  | [intPart, fracPart] =>
      if (!intPart.isEmpty || !fracPart.isEmpty) && intPart.all Char.isDigit &&
          fracPart.all Char.isDigit then
        some ((signed.1 : Rat) *
          ((digitsToNat intPart * 10 ^ fracPart.length + digitsToNat fracPart : Nat) : Rat) /
          ((10 ^ fracPart.length : Nat) : Rat))
      else Option.none
  | _ => Option.none

/-- Python `int(q)` on a float value: truncation toward zero. -/
def pyIntTrunc (q : Rat) : Int :=
  Int.tdiv q.num (q.den : Int)

/-- One line of the `arpTableRaw` parser. -/
def arpStep (acc : List PyRecord) (line : String) : List PyRecord :=
  if pyStrip line != "" && !pyStartsWith line "Address" then
    let parts := pySplitWs line
    if parts.length ≥ 6 then
      acc ++ [[("address", PyVal.str (parts.getD 0 "")),
               ("hwtype", PyVal.str (parts.getD 1 "")),
               ("hwaddress", PyVal.str (parts.getD 2 "")),
               ("flags", PyVal.str (parts.getD 3 "")),
               ("mask", PyVal.str (parts.getD 4 "")),
               ("iface", PyVal.str (parts.getD 5 ""))]]
    else acc
  else acc

/-- Size conversion of the `blockDevices` parser; `Option.none` models the
`ValueError` raised by `float()` on a malformed size prefix. -/
def blockSizeBytes (sizeStr : String) : Option Int :=
  if sizeStr != "" && sizeStr != "0" then
    if pyEndsWith sizeStr "G" then
      (pyFloatParse (pyDropLast sizeStr)).map (fun q => pyIntTrunc (q * (1024 * 1024 * 1024)))
    else if pyEndsWith sizeStr "M" then
      (pyFloatParse (pyDropLast sizeStr)).map (fun q => pyIntTrunc (q * (1024 * 1024)))
    else if pyEndsWith sizeStr "K" then
      (pyFloatParse (pyDropLast sizeStr)).map (fun q => pyIntTrunc (q * 1024))
    else some 0
  else some 0

/-- One line of the `blockDevices` parser; a `Option.none` accumulator means
an exception has already escaped the function. -/
def blockStep (acc : Option (List PyRecord)) (line : String) : Option (List PyRecord) :=
  match acc with
  | Option.none => Option.none
  | some records =>
    if pyStrip line != "" && !pyStartsWith line "NAME" then
      let parts := pySplitWs line
      if parts.length ≥ 6 then
        let sizeStr := if parts.length > 3 then parts.getD 3 "" else "0"
        match blockSizeBytes sizeStr with
        | Option.none => Option.none
        | some sizeBytes =>
            some (records ++ [[("device_name", PyVal.str (parts.getD 0 "")),
              ("size_bytes", PyVal.int sizeBytes),
              ("device_type", PyVal.str (if parts.length > 5 then parts.getD 5 "" else "")),
              ("mount_point", PyVal.str (if parts.length > 6 then parts.getD 6 "" else "")),
              ("filesystem", PyVal.str ""),
              ("model", PyVal.str "")]])
      else some records
    else some records

/-- One line of the `connectionTracking` parser. -/
def connStep (acc : List PyRecord) (line : String) : List PyRecord :=
  if pyStrip line != "" then
    acc ++ [[("raw_line", PyVal.str (pyStrip line))]]
  else acc

/-- One line of the `disk_usage` parser. -/
def diskUsageStep (acc : List PyRecord) (line : String) : List PyRecord :=
  if pyStrip line != "" && !pyStartsWith line "Filesystem" then
    let parts := pySplitWs line
    if parts.length ≥ 6 then
      let sizeKb : Int := if pyIsDigitStr (parts.getD 1 "") then (pyStrToNat (parts.getD 1 "") : Int) else 0
      let usedKb : Int := if pyIsDigitStr (parts.getD 2 "") then (pyStrToNat (parts.getD 2 "") : Int) else 0
      let availKb : Int := if pyIsDigitStr (parts.getD 3 "") then (pyStrToNat (parts.getD 3 "") : Int) else 0
      let pct := pyRemoveChar (parts.getD 4 "") '%'
      acc ++ [[("filesystem", PyVal.str (parts.getD 0 "")),
               ("size_bytes", PyVal.int (sizeKb * 1024)),
               ("used_bytes", PyVal.int (usedKb * 1024)),
               ("available_bytes", PyVal.int (availKb * 1024)),
               ("use_percent", PyVal.int (if pyIsDigitStr pct then (pyStrToNat pct : Int) else 0)),
               ("mounted_on", PyVal.str (pyJoin " " (parts.drop 5)))]]
    else acc
  else acc

/-- `line.split(':')[1].strip() if ':' in line else ''` of the fdisk parser. -/
def fdiskColonField (line : String) : String :=
  if pyContainsChar line ':' then pyStrip ((pySplitOnChar line ':').getD 1 "") else ""

/-- The `Disk /` header branch of the fdisk parser: open a fresh
`current_disk` record when the line has at least four tokens. -/
def fdiskDiskHeader (currentDisk : PyRecord) (acc : List PyRecord) (parts : List String) :
    PyRecord × List PyRecord :=
  if parts.length ≥ 4 then
    ([("disk_path", PyVal.str (pyRstripChar (parts.getD 1 "") ':')),
      ("disk_size", PyVal.str (parts.getD 2 "" ++ " " ++ pyRstripChar (parts.getD 3 "") ',')),
      ("disk_model", PyVal.str ""),
      ("sector_size", PyVal.str ""),
      ("disklabel_type", PyVal.str ""),
      ("disk_identifier", PyVal.str "")], acc)
  else (currentDisk, acc)

/-- The partition-line branch of the fdisk parser: detect an optional boot
flag, parse the positional fields and emit the current disk record merged
with the partition fields. -/
def fdiskPartitionLine (currentDisk : PyRecord) (acc : List PyRecord) (parts : List String) :
    PyRecord × List PyRecord :=
  if parts.length ≥ 6 then
    let bootFlag := if parts.length > 1 then pyContainsChar (parts.getD 1 "") '*' else false
    let startIdx := if bootFlag then 2 else 1
    if parts.length ≥ startIdx + 5 then
      let record := dictUpdate currentDisk
        [("device", PyVal.str (parts.getD 0 "")),
         ("boot_flag", PyVal.bool bootFlag),
         ("start_sector", PyVal.int (if pyIsDigitStr (parts.getD startIdx "") then (pyStrToNat (parts.getD startIdx "") : Int) else 0)),
         ("end_sector", PyVal.int (if pyIsDigitStr (parts.getD (startIdx + 1) "") then (pyStrToNat (parts.getD (startIdx + 1) "") : Int) else 0)),
         ("sectors", PyVal.int (if pyIsDigitStr (parts.getD (startIdx + 2) "") then (pyStrToNat (parts.getD (startIdx + 2) "") : Int) else 0)),
         ("size", PyVal.str (parts.getD (startIdx + 3) "")),
         ("partition_id", PyVal.str (if parts.length > startIdx + 4 then parts.getD (startIdx + 4) "" else "")),
         ("partition_type", PyVal.str (if parts.length > startIdx + 5 then pyJoin " " (parts.drop (startIdx + 5)) else ""))]
      (currentDisk, acc ++ [record])
    else (currentDisk, acc)
  else (currentDisk, acc)

/-- One line of the stateful `fdisk` parser.  The state is the
`current_disk` record together with the records produced so far. -/
def fdiskStep (st : PyRecord × List PyRecord) (line : String) : PyRecord × List PyRecord :=
  let currentDisk := st.1
  let acc := st.2
  if pyStartsWith line "Disk /" then
    fdiskDiskHeader currentDisk acc (pySplitWs line)
  else if pyStartsWith line "Sector size" then
    (dictSet currentDisk "sector_size" (PyVal.str (fdiskColonField line)), acc)
  else if pyStartsWith line "Disklabel type" then
    (dictSet currentDisk "disklabel_type" (PyVal.str (fdiskColonField line)), acc)
  else if pyStartsWith line "Disk identifier" then
    (dictSet currentDisk "disk_identifier" (PyVal.str (fdiskColonField line)), acc)
  else if pyStrip line != "" && !pyStartsWith line "Device" && pyContainsChar line '/' then
    fdiskPartitionLine currentDisk acc (pySplitWs line)
  else (currentDisk, acc)

/-- One line of the `filesystemStats` parser. -/
def fsStatsStep (acc : List PyRecord) (line : String) : List PyRecord :=
  if pyStrip line != "" && !pyStartsWith line "Filesystem" then
    let parts := pySplitWs line
    if parts.length ≥ 6 then
      acc ++ [[("filesystem", PyVal.str (parts.getD 0 "")),
               ("inodes", PyVal.str (parts.getD 1 "")),
               ("iused", PyVal.str (parts.getD 2 "")),
               ("ifree", PyVal.str (parts.getD 3 "")),
               ("iuse_percent", PyVal.str (parts.getD 4 "")),
               ("mounted_on", PyVal.str (pyJoin " " (parts.drop 5)))]]
    else acc
  else acc

/-- One line of the `filesystemTypes` parser. -/
def fsTypesStep (acc : List PyRecord) (line : String) : List PyRecord :=
  if pyStrip line != "" then
    let parts := pySplitWs line
    if parts.length ≥ 1 then
      if parts.getD 0 "" = "nodev" then
        acc ++ [[("filesystem_type", PyVal.str (if parts.length > 1 then parts.getD 1 "" else "")),
                 ("nodev", PyVal.bool true)]]
      else
        acc ++ [[("filesystem_type", PyVal.str (parts.getD 0 "")),
                 ("nodev", PyVal.bool false)]]
    else acc
  else acc

/-- `parse_raw_stdout_data(stdout_content, artifact_type)`: empty or
non-string input yields the empty list; otherwise dispatch on the artifact
type (an unmatched type leaves the record list empty).  `Option.none`
models an exception escaping the function. -/
def parseRawStdoutData (stdoutContent : PyVal) (artifactType : String) :
    Option (List PyRecord) :=
  match stdoutContent with
  | .str s =>
      if s = "" then some []
      else
        let lines := pyLines s
        if artifactType = "arpTableRaw" then some (lines.foldl arpStep [])
        else if artifactType = "blockDevices" then lines.foldl blockStep (some [])
        else if artifactType = "connectionTracking" then some (lines.foldl connStep [])
        else if artifactType = "disk_usage" then some (lines.foldl diskUsageStep [])
        else if artifactType = "fdisk" then some ((lines.foldl fdiskStep ([], [])).2)
        else if artifactType = "filesystemStats" then some (lines.foldl fsStatsStep [])
        else if artifactType = "filesystemTypes" then some (lines.foldl fsTypesStep [])
        else some []
  | _ => some []

/-! ## Ingestion processing (`app/ingestion.py`)

The database is abstracted by an oracle `ok : Nat → Bool` giving the
success of the n-th `_insert_record` call of the processing function (the
records handed to `_insert_record` are collected in `attempts`, so the
oracle index of an attempt is its position in that list). -/

/-- The per-file statistics dictionary (`total_records`,
`inserted_records`, `errors`). -/
structure Stats where
  total : Nat
  inserted : Nat
  errors : Nat

/-- Result of one processing function: the `(success, message, stats)`
triple plus the list of records handed to `_insert_record`, in order. -/
structure ProcOut where
  success : Bool
  message : String
  stats : Stats
  attempts : List PyRecord

/-- State of an insert loop: counters plus the insert attempts so far. -/
structure LoopState where
  inserted : Nat
  errors : Nat
  attempts : List PyRecord

/-- The insert loop of `_process_raw_data`: filter, prepare, time-stamp and
insert every parsed record; an insert failure only increments the error
counter.  `Except.error` models an exception escaping the loop with the
state it had reached. -/
def rawInsertLoop (artifactType : String) (now : PyVal) (ok : Nat → Bool) :
    List PyRecord → LoopState → Except LoopState LoopState
  | [], st => .ok st
  | record :: rest, st =>
      let filtered := filterRecordFields record artifactType
      match prepareRecordForInsertion filtered (some artifactType) with
      | Option.none => .error st
      | some prepared =>
          let prepared := dictSet (dictSet prepared "created_at" now) "artifact_type" (PyVal.str artifactType)
          if ok st.attempts.length then
            rawInsertLoop artifactType now ok rest ⟨st.inserted + 1, st.errors, st.attempts ++ [prepared]⟩
          else
            rawInsertLoop artifactType now ok rest ⟨st.inserted, st.errors + 1, st.attempts ++ [prepared]⟩

/-- `_process_raw_data(data, ..., artifact_type)`. -/
def processRawData (data : PyVal) (artifactType : String) (now : PyVal) (ok : Nat → Bool) :
    ProcOut :=
  let stdoutContent : Option PyVal :=
    match data with
    | .dict d => some ((alistGet d "stdout").getD (PyVal.str ""))
    | .str s => some (.str s)
    | _ => Option.none
  match stdoutContent with
  | Option.none =>
      ⟨false, "No stdout content found for " ++ artifactType, ⟨0, 0, 1⟩, []⟩
  | some sc =>
      if !pyTruthy sc then
        ⟨false, "No stdout content found for " ++ artifactType, ⟨0, 0, 1⟩, []⟩
      else
        match parseRawStdoutData sc artifactType with
        | Option.none =>
            ⟨false, "Error processing raw data for " ++ artifactType, ⟨0, 0, 1⟩, []⟩
        | some [] =>
            ⟨true, "No parseable data found in " ++ artifactType, ⟨0, 0, 0⟩, []⟩
        | some parsedRecords =>
            let total := parsedRecords.length
            match rawInsertLoop artifactType now ok parsedRecords ⟨0, 0, []⟩ with
            | .error st =>
                ⟨false, "Error processing raw data for " ++ artifactType, ⟨total, 0, 1⟩, st.attempts⟩
            | .ok st =>
                if st.inserted > 0 then
                  ⟨true, "Processed " ++ toString st.inserted ++ "/" ++ toString total ++
                    " records for " ++ artifactType, ⟨total, st.inserted, st.errors⟩, st.attempts⟩
                else
                  ⟨false, "Failed to insert any records for " ++ artifactType,
                    ⟨total, st.inserted, st.errors⟩, st.attempts⟩

/-- The item loop of `_process_list_data`: non-dict items are skipped
silently; dict items get a `created_at` stamp when absent and are prepared
with the table name as artifact type. -/
def listInsertLoop (tableName : String) (now : PyVal) (ok : Nat → Bool) :
    List PyVal → LoopState → Except LoopState LoopState
  | [], st => .ok st
  | item :: rest, st =>
      match item with
      | .dict d =>
          let d := if (alistGet d "created_at").isSome then d else dictSet d "created_at" now
          match prepareRecordForInsertion d (some tableName) with
          | Option.none => .error st
          | some prepared =>
              if ok st.attempts.length then
                listInsertLoop tableName now ok rest ⟨st.inserted + 1, st.errors, st.attempts ++ [prepared]⟩
              else
                listInsertLoop tableName now ok rest ⟨st.inserted, st.errors + 1, st.attempts ++ [prepared]⟩
      | _ => listInsertLoop tableName now ok rest st

/-- `_process_list_data(data, ..., table_name, stats)`. -/
def processListData (data : PyVal) (tableName : String) (now : PyVal) (ok : Nat → Bool) :
    ProcOut :=
  match data with
  | .list items =>
      let total := items.length
      match listInsertLoop tableName now ok items ⟨0, 0, []⟩ with
      | .error st =>
          ⟨false, "Error processing list data", ⟨total, 0, st.errors⟩, st.attempts⟩
      | .ok st =>
          if st.inserted = total then
            ⟨true, "Successfully processed all " ++ toString st.inserted ++ " records",
              ⟨total, st.inserted, st.errors⟩, st.attempts⟩
          else
            ⟨false, "Processed " ++ toString st.inserted ++ "/" ++ toString total ++
              " records with " ++ toString st.errors ++ " errors",
              ⟨total, st.inserted, st.errors⟩, st.attempts⟩
  | _ => ⟨false, "Expected list data format", ⟨0, 0, 0⟩, []⟩

/-- Python `str(v)` as used for the `content` fallback record. -/
def pyStr : PyVal → String
  | .none => "None"
  | .bool true => "True"
  | .bool false => "False"
  | .int n => toString n
  | .float q => toString q
  | .str s => s
  | .list xs => (jsonDumpsList xs).elim "" (fun parts => "[" ++ pyJoin ", " parts ++ "]")
  | .dict xs => (jsonDumpsDict xs).elim "" (fun parts => "\x7b" ++ pyJoin ", " parts ++ "\x7d")
  | .other rep => rep

/-- `_process_structured_data(data, ..., table_name, stats, artifact_type)`. -/
def processStructuredData (data : PyVal) (tableName artifactType : String) (now : PyVal)
    (ok : Nat → Bool) : ProcOut :=
  if requiresRawDataParsing artifactType then
    processRawData data artifactType now ok
  else
    match data with
    | .dict d =>
        match prepareRecordForInsertion d (some artifactType) with
        | Option.none =>
            ⟨false, "Error processing " ++ artifactType, ⟨0, 0, 1⟩, []⟩
        | some record =>
            let record := dictSet (dictSet record "created_at" now) "artifact_type" (PyVal.str artifactType)
            if ok 0 then
              ⟨true, artifactType ++ " processed successfully", ⟨1, 1, 0⟩, [record]⟩
            else
              ⟨false, "Failed to insert " ++ artifactType, ⟨0, 0, 1⟩, [record]⟩
    | .list items => processListData (.list items) tableName now ok
    | v =>
        let record : PyRecord :=
          [("content", PyVal.str (pyStr v)), ("artifact_type", PyVal.str artifactType),
           ("created_at", now)]
        if ok 0 then
          ⟨true, artifactType ++ " processed successfully", ⟨1, 1, 0⟩, [record]⟩
        else
          ⟨false, "Failed to insert " ++ artifactType, ⟨0, 0, 1⟩, [record]⟩

/-- `_process_collection_summary(data, ...)`. -/
def processCollectionSummary (data : PyRecord) (now : PyVal) (ok : Nat → Bool) : ProcOut :=
  let filteredData := filterRecordFields data "collection_metadata"
  match prepareRecordForInsertion filteredData (some "collection_metadata") with
  | Option.none =>
      ⟨false, "Error processing collection summary", ⟨0, 0, 1⟩, []⟩
  | some record =>
      let record := dictSet record "created_at" now
      if ok 0 then
        ⟨true, "Collection summary processed successfully", ⟨1, 1, 0⟩, [record]⟩
      else
        ⟨false, "Failed to insert collection summary", ⟨0, 0, 1⟩, [record]⟩

/-- `_process_firewall_rules(data, ...)`: filter to the `firewallRules`
fields and hand the result to `_process_structured_data`. -/
def processFirewallRules (data : PyRecord) (tableName : String) (now : PyVal)
    (ok : Nat → Bool) : ProcOut :=
  let filteredData := filterRecordFields data "firewallRules"
  processStructuredData (.dict filteredData) tableName "firewallRules" now ok

/-! ## Table provisioning (`_ensure_table_exists`) -/

/-- Column definition inferred for one key/value pair of the sample record. -/
def inferColumnDef (k : String) (v : PyVal) : String :=
  if k = "id" then "id SERIAL PRIMARY KEY"
  else if k = "created_at" then "created_at TIMESTAMP DEFAULT CURRENT_TIMESTAMP"
  else match v with
    | .bool _ => k ++ " BOOLEAN"
    | .int _ => k ++ " INTEGER"
    | .float _ => k ++ " FLOAT"
    | _ => k ++ " TEXT"

/-- The `columns_def` list synthesized by `_ensure_table_exists` when the
table does not exist: one inferred column per record key in order, an
auto-increment primary key prepended when the record lacks `id`, a
server-defaulted timestamp appended when it lacks `created_at`. -/
def ensureTableColumns (record : PyRecord) : List String :=
  let columnsDef := record.foldl (fun acc kv => acc ++ [inferColumnDef kv.1 kv.2]) []
  let columnsDef :=
    if (alistGet record "id").isSome then columnsDef
    else "id SERIAL PRIMARY KEY" :: columnsDef
  if (alistGet record "created_at").isSome then columnsDef
  else columnsDef ++ ["created_at TIMESTAMP DEFAULT CURRENT_TIMESTAMP"]

/-! ## Case rollup status (`app/utils/ingestion.py`, `update_case_statistics`) -/

/-- The rollup `ingestion_status` recomputed from the statuses of all of a
case's ingestion log entries. -/
def updateCaseIngestionStatus (statuses : List String) : String :=
  let totalArtifacts := (statuses.filter (fun s => s = "success")).length
  let failedCount := (statuses.filter (fun s => s = "failed")).length
  let pendingCount := (statuses.filter (fun s => s = "pending" || s = "processing")).length
  if pendingCount > 0 then "processing"
  else if failedCount > 0 ∧ totalArtifacts = 0 then "failed"
  else if failedCount > 0 then "partial"
  else if totalArtifacts > 0 then "completed"
  else "pending"

/-- The precedence rule as the specification states it, written with `any`
predicates over the log history. -/
def specRollupStatus (statuses : List String) : String :=
  if statuses.any (fun s => s = "pending" || s = "processing") then "processing"
  else if statuses.any (fun s => s = "failed") && !statuses.any (fun s => s = "success") then "failed"
  else if statuses.any (fun s => s = "failed") then "partial"
  else if statuses.any (fun s => s = "success") then "completed"
  else "pending"

/-! ## Case schema naming (`app/utils/db_utils.py`, `create_case_schema`) -/

/-- `schema_name = f"case_{case_uuid.replace('-', '_')}"`. -/
def caseSchemaName (caseUuid : String) : String :=
  "case_" ++ String.mk (caseUuid.toList.map (fun c => if c = '-' then '_' else c))

/-! ## Proof-side helper definitions -/

/-- A value already reduced to a scalar type (`None`, boolean, number or
string). -/
def isScalarValue : PyVal → Bool
  | .none => true
  | .bool _ => true
  | .int _ => true
  | .float _ => true
  | .str _ => true
  | _ => false

/-- The normalised form of a scalar value (strings clipped to 10,000
characters, everything else unchanged). -/
def normScalar : PyVal → PyVal
  | .str s => .str (if s.length > 10000 then pySliceTo s 10000 else s)
  | v => v

/-- Entrywise scalar normalisation (proof-side shorthand). -/
def normEntry (kv : String × PyVal) : String × PyVal :=
  (kv.1, normScalar kv.2)

/-- Closed form of the field-filter fold: the allowed fields present in the
record, in allowed order, with their values. -/
def filteredForm (record : PyRecord) (fields : List String) : PyRecord :=
  fields.filterMap (fun f => (alistGet record f).map (fun v => (f, v)))

/-- Number of successful inserts among the oracle answers
`ok start, ok (start+1), ..., ok (start+n-1)`. -/
def countOkFrom (ok : Nat → Bool) (start n : Nat) : Nat :=
  ((List.range n).filter (fun i => ok (start + i))).length

/-- The key list of a partition record emitted by the fdisk parser from an
empty `current_disk`. -/
def fdiskPartitionKeys : List String :=
  ["device", "boot_flag", "start_sector", "end_sector", "sectors", "size",
   "partition_id", "partition_type"]

/-- A line is free of the four fdisk disk-metadata prefixes. -/
def fdiskMetaFree (line : String) : Bool :=
  !pyStartsWith line "Disk /" && !pyStartsWith line "Sector size" &&
  !pyStartsWith line "Disklabel type" && !pyStartsWith line "Disk identifier"

/-! ## General lemmas about dictionaries -/

theorem alistGet_dictSet {α : Type} (d : List (String × α)) (k k' : String) (v : α) :
    alistGet (dictSet d k v) k' = if k = k' then some v else alistGet d k' := by
  induction d with
  | nil => simp [dictSet, alistGet]
  | cons hd tl ih =>
      obtain ⟨k0, v0⟩ := hd
      by_cases h0 : k0 = k
      · subst h0
        by_cases h1 : k0 = k' <;> simp [dictSet, alistGet, h1]
      · by_cases h1 : k0 = k'
        · subst h1
          have h0' : ¬ k = k0 := fun h => h0 h.symm
          simp [dictSet, alistGet, h0, h0']
        · simp [dictSet, alistGet, h0, h1, ih]

theorem alistGet_mem {α : Type} {d : List (String × α)} {k : String} {v : α}
    (h : alistGet d k = some v) : (k, v) ∈ d := by
  induction d with
  | nil => simp [alistGet] at h
  | cons hd tl ih =>
      obtain ⟨k0, v0⟩ := hd
      by_cases h0 : k0 = k
      · subst h0
        simp [alistGet] at h
        simp [h]
      · simp [alistGet, h0] at h
        exact List.mem_cons_of_mem _ (ih h)

theorem mem_dictSet {α : Type} {d : List (String × α)} {k : String} {v : α}
    {kv : String × α} (h : kv ∈ dictSet d k v) : kv ∈ d ∨ kv = (k, v) := by
  induction d with
  | nil => simp [dictSet] at h; simp [h]
  | cons hd tl ih =>
      obtain ⟨k0, v0⟩ := hd
      by_cases h0 : k0 = k
      · simp [dictSet, h0] at h
        rcases h with h | h
        · subst h0; right; simp [h]
        · left; exact List.mem_cons_of_mem _ h
      · simp [dictSet, h0] at h
        rcases h with h | h
        · left; simp [h]
        · rcases ih h with h' | h'
          · left; exact List.mem_cons_of_mem _ h'
          · right; exact h'

theorem dictSet_of_get_none {α : Type} {d : List (String × α)} {k : String}
    (h : alistGet d k = Option.none) (v : α) : dictSet d k v = d ++ [(k, v)] := by
  induction d with
  | nil => simp [dictSet]
  | cons hd tl ih =>
      obtain ⟨k0, v0⟩ := hd
      by_cases h0 : k0 = k
      · simp [alistGet, h0] at h
      · simp [alistGet, h0] at h
        simp [dictSet, h0, ih h]

theorem alistGet_append {α : Type} (a b : List (String × α)) (k : String) :
    alistGet (a ++ b) k =
      match alistGet a k with
      | some v => some v
      | Option.none => alistGet b k := by
  induction a with
  | nil => simp [alistGet]
  | cons hd tl ih =>
      obtain ⟨k0, v0⟩ := hd
      by_cases h0 : k0 = k <;> simp [alistGet, h0, ih]

theorem alistGet_filteredForm (record : PyRecord) (fields : List String) (key : String) :
    alistGet (filteredForm record fields) key =
      if key ∈ fields then alistGet record key else Option.none := by
  induction fields with
  | nil => simp [filteredForm, alistGet]
  | cons f fs ih =>
      cases hget : alistGet record f with
      | none =>
          by_cases hk : key = f
          · subst hk
            simp [filteredForm, List.filterMap_cons, hget] at ih ⊢
            rw [ih]
          · simp [filteredForm, List.filterMap_cons, hget] at ih ⊢
            rw [ih]
            simp [hk]
      | some v =>
          by_cases hk : key = f
          · subst hk
            simp [filteredForm, List.filterMap_cons, hget, alistGet]
          · have hfk : ¬ f = key := fun h => hk h.symm
            simp [filteredForm, List.filterMap_cons, hget, alistGet, hfk] at ih ⊢
            rw [ih]
            simp [hk]

theorem filterFold_eq_filteredForm (record : PyRecord) :
    ∀ (fields : List String) (acc : PyRecord), fields.Nodup →
      (∀ f ∈ fields, alistGet acc f = Option.none) →
      fields.foldl (fun acc f =>
          match alistGet record f with
          | some v => dictSet acc f v
          | Option.none => acc) acc = acc ++ filteredForm record fields := by
  intro fields
  induction fields with
  | nil => intro acc _ _; simp [filteredForm]
  | cons f fs ih =>
      intro acc hnd hfresh
      have hndtl : fs.Nodup := (List.nodup_cons.mp hnd).2
      have hfnotin : f ∉ fs := (List.nodup_cons.mp hnd).1
      cases hget : alistGet record f with
      | none =>
          have := ih acc hndtl (fun g hg => hfresh g (List.mem_cons_of_mem _ hg))
          simp [List.foldl_cons, hget, this, filteredForm, List.filterMap_cons]
      | some v =>
          have hacc : alistGet acc f = Option.none := hfresh f (List.mem_cons_self f fs)
          have hstep : dictSet acc f v = acc ++ [(f, v)] := dictSet_of_get_none hacc v
          have hfresh' : ∀ g ∈ fs, alistGet (acc ++ [(f, v)]) g = Option.none := by
            intro g hg
            rw [alistGet_append]
            have h1 : alistGet acc g = Option.none := hfresh g (List.mem_cons_of_mem _ hg)
            have h2 : ¬ f = g := fun h => hfnotin (h ▸ hg)
            simp [h1, alistGet, h2]
          have := ih (acc ++ [(f, v)]) hndtl hfresh'
          simp [List.foldl_cons, hget, hstep, this, filteredForm, List.filterMap_cons]

theorem fieldFilters_fields_nodup : ∀ p ∈ FIELD_FILTERS, p.2.fields.Nodup := by
  decide

theorem filterRecordFields_known (record : PyRecord) (t : String) (e : FilterEntry)
    (h : fieldFilterEntry t = some e) :
    filterRecordFields record t = filteredForm record e.fields := by
  have hnd : e.fields.Nodup := fieldFilters_fields_nodup (t, e) (alistGet_mem h)
  unfold filterRecordFields
  rw [h]
  exact filterFold_eq_filteredForm record e.fields [] hnd (fun f _ => rfl)

theorem filteredForm_idem (record : PyRecord) (fields : List String) :
    filteredForm (filteredForm record fields) fields = filteredForm record fields := by
  have h : ∀ f ∈ fields,
      (alistGet (filteredForm record fields) f).map (fun v => (f, v)) =
        (alistGet record f).map (fun v => (f, v)) := by
    intro f hf
    rw [alistGet_filteredForm]
    simp [hf]
  exact List.filterMap_congr h

theorem filterRecordFields_idem (record : PyRecord) (t : String) :
    filterRecordFields (filterRecordFields record t) t = filterRecordFields record t := by
  cases h : fieldFilterEntry t with
  | none => unfold filterRecordFields; rw [h]
  | some e =>
      rw [filterRecordFields_known record t e h, filterRecordFields_known _ t e h,
        filteredForm_idem]

/-! ## Lemmas about the normalizer -/

theorem prepareValue_scalar (v : PyVal) (h : isScalarValue v = true) :
    prepareValue v = some (normScalar v) := by
  cases v <;> simp_all [isScalarValue, prepareValue, normScalar]

theorem normScalar_scalar (v : PyVal) (h : isScalarValue v = true) :
    isScalarValue (normScalar v) = true := by
  cases v <;> simp_all [isScalarValue, normScalar]

theorem pySliceTo_length (s : String) (n : Nat) :
    (pySliceTo s n).length = min n s.length := by
  show (s.toList.take n).length = min n s.length
  rw [List.length_take]
  rfl

theorem normScalar_idem (v : PyVal) : normScalar (normScalar v) = normScalar v := by
  cases v with
  | str s =>
      by_cases h : s.length > 10000
      · have hlen : (pySliceTo s 10000).length = 10000 := by
          rw [pySliceTo_length]; omega
        simp [normScalar, h, hlen]
      · simp [normScalar, h]
  | _ => rfl

theorem prepLoop_scalar (l : PyRecord) (h : ∀ kv ∈ l, isScalarValue kv.2 = true) :
    prepLoop l = some (l.map normEntry) := by
  induction l with
  | nil => rfl
  | cons kv rest ih =>
      have h1 : isScalarValue kv.2 = true := h kv (List.mem_cons_self _ _)
      have h2 := ih (fun x hx => h x (List.mem_cons_of_mem _ hx))
      simp [prepLoop, prepEntry, prepareValue_scalar kv.2 h1, h2, normEntry]

theorem alistGet_mapValues (l : PyRecord) (g : PyVal → PyVal) (key : String) :
    alistGet (l.map (fun kv => (kv.1, g kv.2))) key = (alistGet l key).map g := by
  induction l with
  | nil => rfl
  | cons kv rest ih =>
      by_cases h : kv.1 = key <;> simp [alistGet, h, ih]

theorem filteredForm_mapValues (record : PyRecord) (fields : List String) (g : PyVal → PyVal) :
    filteredForm (record.map (fun kv => (kv.1, g kv.2))) fields =
      (filteredForm record fields).map (fun kv => (kv.1, g kv.2)) := by
  induction fields with
  | nil => rfl
  | cons f fs ih =>
      cases hget : alistGet record f with
      | none =>
          simp [filteredForm, List.filterMap_cons, alistGet_mapValues, hget] at ih ⊢
          exact ih
      | some v =>
          simp [filteredForm, List.filterMap_cons, alistGet_mapValues, hget] at ih ⊢
          exact ih

theorem filterRecordFields_mapValues (record : PyRecord) (t : String) (g : PyVal → PyVal) :
    filterRecordFields (record.map (fun kv => (kv.1, g kv.2))) t =
      (filterRecordFields record t).map (fun kv => (kv.1, g kv.2)) := by
  cases he : fieldFilterEntry t with
  | none => unfold filterRecordFields; rw [he]
  | some e =>
      rw [filterRecordFields_known _ t e he, filterRecordFields_known record t e he,
        filteredForm_mapValues]

theorem filteredForm_subset (record : PyRecord) (fields : List String) {kv : String × PyVal}
    (h : kv ∈ filteredForm record fields) : kv ∈ record := by
  unfold filteredForm at h
  rw [List.mem_filterMap] at h
  obtain ⟨f, _, hf⟩ := h
  cases hget : alistGet record f with
  | none => rw [hget] at hf; simp at hf
  | some v =>
      rw [hget] at hf
      simp at hf
      rw [← hf]
      exact alistGet_mem hget

theorem filterRecordFields_subset (record : PyRecord) (t : String) {kv : String × PyVal}
    (h : kv ∈ filterRecordFields record t) : kv ∈ record := by
  cases he : fieldFilterEntry t with
  | none =>
      unfold filterRecordFields at h
      rw [he] at h
      exact h
  | some e =>
      rw [filterRecordFields_known record t e he] at h
      exact filteredForm_subset _ _ h

theorem map_normEntry_scalar (F : PyRecord) (hF : ∀ kv ∈ F, isScalarValue kv.2 = true) :
    ∀ kv ∈ F.map normEntry, isScalarValue kv.2 = true := by
  intro kv hkv
  rw [List.mem_map] at hkv
  obtain ⟨kv0, hkv0, rfl⟩ := hkv
  exact normScalar_scalar _ (hF kv0 hkv0)

theorem map_normEntry_idem (F : PyRecord) :
    (F.map normEntry).map normEntry = F.map normEntry := by
  rw [List.map_map]
  apply List.map_congr_left
  intro kv _
  simp [normEntry, Function.comp, normScalar_idem]

/-! ## Lemmas for the rollup status, provisioner and schema name -/

theorem length_filter_pos (l : List String) (p : String → Bool) :
    0 < (l.filter p).length ↔ l.any p = true := by
  induction l with
  | nil => simp
  | cons x xs ih => by_cases hx : p x <;> simp [List.filter_cons, hx, ih]

theorem foldl_append_map {α β : Type} (l : List α) (f : α → β) :
    ∀ acc : List β, l.foldl (fun a x => a ++ [f x]) acc = acc ++ l.map f := by
  induction l with
  | nil => intro acc; simp
  | cons x xs ih => intro acc; simp [List.foldl_cons, ih]

theorem replaceChar_cancel (c d : Char) (hc : c ≠ '_') (hd : d ≠ '_')
    (h : (if c = '-' then '_' else c) = (if d = '-' then '_' else d)) : c = d := by
  by_cases h1 : c = '-'
  · by_cases h2 : d = '-'
    · rw [h1, h2]
    · rw [if_pos h1, if_neg h2] at h
      exact absurd h.symm hd
  · by_cases h2 : d = '-'
    · rw [if_neg h1, if_pos h2] at h
      exact absurd h hc
    · rw [if_neg h1, if_neg h2] at h
      exact h

theorem replaceChar_inj : ∀ (la lb : List Char),
    la.all (fun c => c ≠ '_') = true → lb.all (fun c => c ≠ '_') = true →
    la.map (fun c => if c = '-' then '_' else c) = lb.map (fun c => if c = '-' then '_' else c) →
    la = lb := by
  intro la
  induction la with
  | nil =>
      intro lb _ _ h
      cases lb with
      | nil => rfl
      | cons d ds => simp at h
  | cons c cs ih =>
      intro lb ha hb h
      cases lb with
      | nil => simp at h
      | cons d ds =>
          simp only [List.map_cons, List.cons.injEq] at h
          simp only [List.all_cons, Bool.and_eq_true] at ha hb
          have hcd : c = d :=
            replaceChar_cancel c d (by simpa using ha.1) (by simpa using hb.1) h.1
          rw [hcd, ih ds ha.2 hb.2 h.2]

theorem rollup_eq_spec (statuses : List String) :
    updateCaseIngestionStatus statuses = specRollupStatus statuses := by
  have hp := length_filter_pos statuses (fun s => s = "pending" || s = "processing")
  have hf := length_filter_pos statuses (fun s => s = "failed")
  have hs := length_filter_pos statuses (fun s => s = "success")
  unfold updateCaseIngestionStatus specRollupStatus
  cases hP : statuses.any (fun s => s = "pending" || s = "processing") with
  | true => simp [hp.mpr hP, hP]
  | false =>
      rw [hP] at hp
      have hP0 : (statuses.filter (fun s => s = "pending" || s = "processing")).length = 0 := by
        simpa using hp
      cases hF : statuses.any (fun s => s = "failed") with
      | true =>
          have hFpos := hf.mpr hF
          cases hS : statuses.any (fun s => s = "success") with
          | true =>
              have hSpos := hs.mpr hS
              have hSne : (statuses.filter (fun s => s = "success")).length ≠ 0 :=
                Nat.pos_iff_ne_zero.mp hSpos
              simp [hP0, hP, hF, hS, hFpos, hSne]
          | false =>
              rw [hS] at hs
              have hS0 : (statuses.filter (fun s => s = "success")).length = 0 := by
                simpa using hs
              simp [hP0, hP, hF, hS, hFpos, hS0]
      | false =>
          rw [hF] at hf
          have hF0 : (statuses.filter (fun s => s = "failed")).length = 0 := by
            simpa using hf
          cases hS : statuses.any (fun s => s = "success") with
          | true =>
              have hSpos := hs.mpr hS
              simp [hP0, hP, hF, hS, hF0, hSpos]
          | false =>
              rw [hS] at hs
              have hS0 : (statuses.filter (fun s => s = "success")).length = 0 := by
                simpa using hs
              simp [hP0, hP, hF, hS, hF0, hS0]

theorem prepare_none_eq (r : PyRecord) :
    prepareRecordForInsertion r Option.none = prepLoop r := rfl

theorem prepare_empty_eq (r : PyRecord) :
    prepareRecordForInsertion r (some "") = prepLoop r := by
  simp [prepareRecordForInsertion]

theorem prepare_some_eq (r : PyRecord) (t : String) (ht : t ≠ "") :
    prepareRecordForInsertion r (some t) = prepLoop (filterRecordFields r t) := by
  simp [prepareRecordForInsertion, ht]

/-! ## Claim theorems -/

/-- C4: for every list of ingestion-log statuses, the recomputed rollup
`ingestion_status` follows the precedence: any pending/processing →
`processing`; else some failed and no success → `failed`; else some failed →
`partial`; else some success → `completed`; else `pending`.  In particular
one success plus one failure yields `partial`, and after the failed log is
retried successfully (two successes) the status is `completed`. -/
theorem rollupStatus_precedence (statuses : List String) :
    updateCaseIngestionStatus statuses = specRollupStatus statuses ∧
    updateCaseIngestionStatus ["success", "failed"] = "partial" ∧
    updateCaseIngestionStatus ["failed", "success"] = "partial" ∧
    updateCaseIngestionStatus ["success", "success"] = "completed" :=
  ⟨rollup_eq_spec statuses, by decide, by decide, by decide⟩

/-- C8: the column list synthesized by `_ensure_table_exists` maps each key
of the sample record in order (auto-increment primary key for `id`,
server-defaulted timestamp for `created_at`, BOOLEAN for booleans, INTEGER
for integers, FLOAT for floats, TEXT for everything else), prepends a
primary key when the record lacks `id` and appends a timestamp column when
it lacks `created_at`. -/
theorem provisionerColumns (record : PyRecord) :
    ensureTableColumns record =
      (if (alistGet record "id").isSome then [] else ["id SERIAL PRIMARY KEY"]) ++
        record.map (fun kv => inferColumnDef kv.1 kv.2) ++
        (if (alistGet record "created_at").isSome then []
         else ["created_at TIMESTAMP DEFAULT CURRENT_TIMESTAMP"]) ∧
    (∀ k b, k ≠ "id" → k ≠ "created_at" → inferColumnDef k (PyVal.bool b) = k ++ " BOOLEAN") ∧
    (∀ k n, k ≠ "id" → k ≠ "created_at" → inferColumnDef k (PyVal.int n) = k ++ " INTEGER") ∧
    (∀ k q, k ≠ "id" → k ≠ "created_at" → inferColumnDef k (PyVal.float q) = k ++ " FLOAT") ∧
    (∀ k s, k ≠ "id" → k ≠ "created_at" → inferColumnDef k (PyVal.str s) = k ++ " TEXT") ∧
    (∀ v, inferColumnDef "id" v = "id SERIAL PRIMARY KEY") ∧
    (∀ v, inferColumnDef "created_at" v = "created_at TIMESTAMP DEFAULT CURRENT_TIMESTAMP") := by
  refine ⟨?_, ?_, ?_, ?_, ?_, ?_, ?_⟩
  · unfold ensureTableColumns
    rw [foldl_append_map]
    by_cases h1 : (alistGet record "id").isSome <;>
      by_cases h2 : (alistGet record "created_at").isSome <;> simp [h1, h2]
  · intro k b hk1 hk2; simp [inferColumnDef, hk1, hk2]
  · intro k n hk1 hk2; simp [inferColumnDef, hk1, hk2]
  · intro k q hk1 hk2; simp [inferColumnDef, hk1, hk2]
  · intro k s hk1 hk2; simp [inferColumnDef, hk1, hk2]
  · intro v; simp [inferColumnDef]
  · intro v; cases v <;> simp [inferColumnDef]

/-- Witness for C8: a key that is neither `id` nor `created_at` with a
boolean value gets a BOOLEAN column. -/
theorem provisionerColumns_witness :
    inferColumnDef "is_active" (PyVal.bool true) = "is_active" ++ " BOOLEAN" :=
  (provisionerColumns []).2.1 "is_active" true (by decide) (by decide)

/-- C9 (amended): the case namespace name is derived deterministically from
the case identifier by replacing hyphens with underscores and prefixing
`case_` (no lower-casing and no space replacement happens), and on
identifiers containing no underscore (such as canonical UUID strings) the
derivation is injective. -/
theorem schemaNameDerivation (a b : String)
    (ha : a.toList.all (fun c => c ≠ '_') = true)
    (hb : b.toList.all (fun c => c ≠ '_') = true) :
    caseSchemaName a =
      "case_" ++ String.mk (a.toList.map (fun c => if c = '-' then '_' else c)) ∧
    (caseSchemaName a = caseSchemaName b → a = b) := by
  refine ⟨rfl, fun h => ?_⟩
  have hd := congrArg String.data h
  simp only [caseSchemaName, String.data_append] at hd
  have hmap : a.toList.map (fun c => if c = '-' then '_' else c) =
      b.toList.map (fun c => if c = '-' then '_' else c) := List.append_cancel_left hd
  have hab := replaceChar_inj a.toList b.toList ha hb hmap
  cases a; cases b; simp_all [String.toList]

/-- C9 counterexample: the claimed derivation is wrong on both counts — the
code neither lower-cases nor replaces spaces (`"A b"` keeps its capital
letter and its space), and the derivation is not injective on arbitrary
identifiers (the distinct identifiers `"a-b"` and `"a_b"` collide). -/
theorem schemaName_counterexample :
    caseSchemaName "A b" = "case_A b" ∧
    caseSchemaName "a-b" = caseSchemaName "a_b" ∧ ("a-b" : String) ≠ "a_b" :=
  ⟨rfl, rfl, by decide⟩

/-- Witness for C9: the derivation theorem applied to a concrete
underscore-free identifier. -/
theorem schemaNameDerivation_witness :
    caseSchemaName "3fa2-bc" =
      "case_" ++ String.mk ("3fa2-bc".toList.map (fun c => if c = '-' then '_' else c)) ∧
    ("3fa2-bc" : String) = "3fa2-bc" :=
  ⟨(schemaNameDerivation "3fa2-bc" "3fa2-bc" (by decide) (by decide)).1,
   (schemaNameDerivation "3fa2-bc" "3fa2-bc" (by decide) (by decide)).2 rfl⟩

/-- C7: the normalizer is idempotent on records whose values are already
scalar (`None`, boolean, number or string): preparing a prepared record
again, for the same artifact type, returns it unchanged. -/
theorem normalizerIdempotentOnScalars (t : Option String) (r : PyRecord)
    (h : ∀ kv ∈ r, isScalarValue kv.2 = true) :
    (prepareRecordForInsertion r t).bind (fun r2 => prepareRecordForInsertion r2 t) =
      prepareRecordForInsertion r t := by
  cases t with
  | none =>
      rw [prepare_none_eq, prepLoop_scalar r h]
      simp only [Option.some_bind]
      rw [prepare_none_eq, prepLoop_scalar _ (map_normEntry_scalar r h), map_normEntry_idem]
  | some t =>
      by_cases ht : t = ""
      · subst ht
        rw [prepare_empty_eq, prepLoop_scalar r h]
        simp only [Option.some_bind]
        rw [prepare_empty_eq, prepLoop_scalar _ (map_normEntry_scalar r h), map_normEntry_idem]
      · have hF : ∀ kv ∈ filterRecordFields r t, isScalarValue kv.2 = true :=
          fun kv hkv => h kv (filterRecordFields_subset r t hkv)
        rw [prepare_some_eq r t ht, prepLoop_scalar _ hF]
        simp only [Option.some_bind]
        rw [prepare_some_eq _ t ht]
        have hmv : filterRecordFields ((filterRecordFields r t).map normEntry) t =
            (filterRecordFields (filterRecordFields r t) t).map normEntry :=
          filterRecordFields_mapValues (filterRecordFields r t) t normScalar
        rw [hmv, filterRecordFields_idem]
        rw [prepLoop_scalar _ (map_normEntry_scalar _ hF), map_normEntry_idem]

/-- Witness for C7: idempotence at a concrete scalar record and artifact
type. -/
theorem normalizerIdempotentOnScalars_witness :
    (prepareRecordForInsertion [("username", PyVal.str "root"), ("uid", PyVal.int 0)]
        (some "userAccounts")).bind
      (fun r2 => prepareRecordForInsertion r2 (some "userAccounts")) =
      prepareRecordForInsertion [("username", PyVal.str "root"), ("uid", PyVal.int 0)]
        (some "userAccounts") :=
  normalizerIdempotentOnScalars (some "userAccounts") _ (by decide)

/-- C1 (amended): ingesting a `collection_summary` object
`{"collection_info": {...}}` with no `statistics` key attempts exactly one
insert, of a record holding only the `created_at` timestamp — the nested
`collection_info` object is discarded by top-level field filtering, not
flattened into `hostname`/`total_*` fields — and with the insert succeeding
the stats report `total_records = 1, inserted_records = 1, errors = 0`. -/
theorem collectionSummary_nested_dropped (info : List (String × PyVal)) (now : PyVal) :
    processCollectionSummary [("collection_info", PyVal.dict info)] now (fun _ => true) =
      ⟨true, "Collection summary processed successfully", ⟨1, 1, 0⟩, [[("created_at", now)]]⟩ := by
  have hfil : filterRecordFields [("collection_info", PyVal.dict info)] "collection_metadata" =
      [] := rfl
  simp [processCollectionSummary, hfil, prepareRecordForInsertion, filterRecordFields,
    fieldFilterEntry, FIELD_FILTERS, alistGet, prepLoop, dictSet]

/-- C1 counterexample: for the upload `{"collection_info": {"hostname":
"h1"}}` the single record handed to the insert has key list
`["created_at"]` only — it contains no `hostname` key and none of
`total_sections`/`total_files`/`total_directories` — so the claimed
flattened row does not exist, while `inserted_records = 1` does hold. -/
theorem collectionSummary_counterexample :
    ((processCollectionSummary [("collection_info", PyVal.dict [("hostname", PyVal.str "h1")])]
        (PyVal.other "2024-01-01 00:00:00") (fun _ => true)).attempts.map
          (fun r => r.map Prod.fst)) = [["created_at"]] ∧
    alistGet ((processCollectionSummary
        [("collection_info", PyVal.dict [("hostname", PyVal.str "h1")])]
        (PyVal.other "2024-01-01 00:00:00") (fun _ => true)).attempts.headD []) "hostname" =
      Option.none ∧
    alistGet ((processCollectionSummary
        [("collection_info", PyVal.dict [("hostname", PyVal.str "h1")])]
        (PyVal.other "2024-01-01 00:00:00") (fun _ => true)).attempts.headD [])
        "total_sections" = Option.none ∧
    (processCollectionSummary [("collection_info", PyVal.dict [("hostname", PyVal.str "h1")])]
        (PyVal.other "2024-01-01 00:00:00") (fun _ => true)).stats.inserted = 1 :=
  ⟨rfl, rfl, rfl, rfl⟩

/-- C2 (amended): a `firewallRules` object produces exactly ONE inserted
row no matter how many of the sub-keys `iptables`/`ip6tables` are present:
the single record carries each present sub-key as one JSON-encoded field
(no flattening into one row per sub-key).  With only `iptables` present and
the insert succeeding, the stats are
`total_records = 1, inserted_records = 1, errors = 0`. -/
theorem firewallRules_single_row (ipt ip6 : List (String × PyVal)) (tn : String)
    (now : PyVal) (si s6 : String)
    (h1 : jsonDumps (PyVal.dict ipt) = some si)
    (h2 : jsonDumps (PyVal.dict ip6) = some s6) :
    processFirewallRules [("iptables", PyVal.dict ipt), ("ip6tables", PyVal.dict ip6)] tn now
        (fun _ => true) =
      ⟨true, "firewallRules processed successfully", ⟨1, 1, 0⟩,
        [[("iptables", PyVal.str si), ("ip6tables", PyVal.str s6),
          ("created_at", now), ("artifact_type", PyVal.str "firewallRules")]]⟩ ∧
    processFirewallRules [("iptables", PyVal.dict ipt)] tn now (fun _ => true) =
      ⟨true, "firewallRules processed successfully", ⟨1, 1, 0⟩,
        [[("iptables", PyVal.str si),
          ("created_at", now), ("artifact_type", PyVal.str "firewallRules")]]⟩ := by
  have hprepA : prepareRecordForInsertion
      [("iptables", PyVal.dict ipt), ("ip6tables", PyVal.dict ip6)] (some "firewallRules") =
      some [("iptables", PyVal.str si), ("ip6tables", PyVal.str s6)] := by
    simp [prepareRecordForInsertion, filterRecordFields, fieldFilterEntry, FIELD_FILTERS,
      alistGet, dictSet, prepLoop, prepEntry, prepareValue, h1, h2]
  have hprepB : prepareRecordForInsertion [("iptables", PyVal.dict ipt)]
      (some "firewallRules") = some [("iptables", PyVal.str si)] := by
    simp [prepareRecordForInsertion, filterRecordFields, fieldFilterEntry, FIELD_FILTERS,
      alistGet, dictSet, prepLoop, prepEntry, prepareValue, h1]
  constructor
  · simp [processFirewallRules, processStructuredData, requiresRawDataParsing,
      filterRecordFields, fieldFilterEntry, FIELD_FILTERS, alistGet, dictSet, hprepA]
  · simp [processFirewallRules, processStructuredData, requiresRawDataParsing,
      filterRecordFields, fieldFilterEntry, FIELD_FILTERS, alistGet, dictSet, hprepB]

/-- C2 counterexample: an object containing BOTH `iptables` and `ip6tables`
leads to exactly one insert attempt, refuting "one row per present sub-key"
(which would require two). -/
theorem firewallRules_counterexample :
    (processFirewallRules
        [("iptables", PyVal.dict [("policy", PyVal.str "ACCEPT")]),
         ("ip6tables", PyVal.dict [("policy", PyVal.str "DROP")])]
        "firewall_rules" (PyVal.other "2024-01-01 00:00:00") (fun _ => true)).attempts.length
      = 1 ∧
    ¬ ((processFirewallRules
        [("iptables", PyVal.dict [("policy", PyVal.str "ACCEPT")]),
         ("ip6tables", PyVal.dict [("policy", PyVal.str "DROP")])]
        "firewall_rules" (PyVal.other "2024-01-01 00:00:00") (fun _ => true)).attempts.length
      = 2) :=
  ⟨rfl, by decide⟩

/-- Witness for C2: the only-`iptables` scenario at a concrete rule set. -/
theorem firewallRules_single_row_witness :
    processFirewallRules [("iptables", PyVal.dict [("policy", PyVal.str "ACCEPT")])]
        "firewall_rules" (PyVal.other "ts") (fun _ => true) =
      ⟨true, "firewallRules processed successfully", ⟨1, 1, 0⟩,
        [[("iptables", PyVal.str "\x7b\"policy\": \"ACCEPT\"\x7d"),
          ("created_at", PyVal.other "ts"), ("artifact_type", PyVal.str "firewallRules")]]⟩ :=
  (firewallRules_single_row [("policy", PyVal.str "ACCEPT")] [] "firewall_rules"
      (PyVal.other "ts") "\x7b\"policy\": \"ACCEPT\"\x7d" "\x7b\x7d" rfl rfl).2

/-! ## Lemmas for the raw parsers -/

theorem rawType_cases (t : String) (h : requiresRawDataParsing t = true) :
    t = "arpTableRaw" ∨ t = "blockDevices" ∨ t = "connectionTracking" ∨ t = "disk_usage" ∨
    t = "fdisk" ∨ t = "filesystemStats" ∨ t = "filesystemTypes" := by
  unfold requiresRawDataParsing at h
  cases he : fieldFilterEntry t with
  | none => rw [he] at h; exact absurd h (by simp)
  | some e =>
      rw [he] at h
      have hmem : (t, e) ∈ FIELD_FILTERS := alistGet_mem he
      have hdec : ∀ p ∈ FIELD_FILTERS, p.2.rawData = true →
          p.1 = "arpTableRaw" ∨ p.1 = "blockDevices" ∨ p.1 = "connectionTracking" ∨
          p.1 = "disk_usage" ∨ p.1 = "fdisk" ∨ p.1 = "filesystemStats" ∨
          p.1 = "filesystemTypes" := by decide
      exact hdec (t, e) hmem (by simpa using h)

theorem foldl_arp_single (lines : List String)
    (h : ∀ l ∈ lines, (pySplitWs l).length = 1) :
    ∀ acc, lines.foldl arpStep acc = acc := by
  induction lines with
  | nil => intro acc; rfl
  | cons l ls ih =>
      intro acc
      have hl : (pySplitWs l).length = 1 := h l (List.mem_cons_self _ _)
      have hstep : arpStep acc l = acc := by
        simp only [arpStep]
        split_ifs <;> first | rfl | (exfalso; omega)
      rw [List.foldl_cons, hstep, ih (fun x hx => h x (List.mem_cons_of_mem _ hx))]

theorem foldl_block_single (lines : List String)
    (h : ∀ l ∈ lines, (pySplitWs l).length = 1) :
    ∀ recs, lines.foldl blockStep (some recs) = some recs := by
  induction lines with
  | nil => intro recs; rfl
  | cons l ls ih =>
      intro recs
      have hl : (pySplitWs l).length = 1 := h l (List.mem_cons_self _ _)
      have hstep : blockStep (some recs) l = some recs := by
        simp only [blockStep]
        split_ifs <;> first | rfl | (exfalso; omega)
      rw [List.foldl_cons, hstep, ih (fun x hx => h x (List.mem_cons_of_mem _ hx))]

theorem foldl_diskUsage_single (lines : List String)
    (h : ∀ l ∈ lines, (pySplitWs l).length = 1) :
    ∀ acc, lines.foldl diskUsageStep acc = acc := by
  induction lines with
  | nil => intro acc; rfl
  | cons l ls ih =>
      intro acc
      have hl : (pySplitWs l).length = 1 := h l (List.mem_cons_self _ _)
      have hstep : diskUsageStep acc l = acc := by
        simp only [diskUsageStep]
        split_ifs <;> first | rfl | (exfalso; omega)
      rw [List.foldl_cons, hstep, ih (fun x hx => h x (List.mem_cons_of_mem _ hx))]

theorem foldl_fsStats_single (lines : List String)
    (h : ∀ l ∈ lines, (pySplitWs l).length = 1) :
    ∀ acc, lines.foldl fsStatsStep acc = acc := by
  induction lines with
  | nil => intro acc; rfl
  | cons l ls ih =>
      intro acc
      have hl : (pySplitWs l).length = 1 := h l (List.mem_cons_self _ _)
      have hstep : fsStatsStep acc l = acc := by
        simp only [fsStatsStep]
        split_ifs <;> first | rfl | (exfalso; omega)
      rw [List.foldl_cons, hstep, ih (fun x hx => h x (List.mem_cons_of_mem _ hx))]

theorem fdiskDiskHeader_snd (c : PyRecord) (a : List PyRecord) (parts : List String) :
    (fdiskDiskHeader c a parts).2 = a := by
  unfold fdiskDiskHeader
  split <;> rfl

theorem fdiskPartitionLine_short (c : PyRecord) (a : List PyRecord) (parts : List String)
    (h : parts.length < 6) : fdiskPartitionLine c a parts = (c, a) := by
  unfold fdiskPartitionLine
  rw [if_neg (by omega)]

theorem foldl_fdisk_short (lines : List String)
    (h : ∀ l ∈ lines, (pySplitWs l).length < 6) :
    ∀ st : PyRecord × List PyRecord, (lines.foldl fdiskStep st).2 = st.2 := by
  induction lines with
  | nil => intro st; rfl
  | cons l ls ih =>
      intro st
      have hl : (pySplitWs l).length < 6 := h l (List.mem_cons_self _ _)
      have hstep : (fdiskStep st l).2 = st.2 := by
        simp only [fdiskStep]
        split_ifs <;>
          first
          | rfl
          | (rw [fdiskPartitionLine_short _ _ _ hl])
          | (rw [fdiskDiskHeader_snd])
      rw [List.foldl_cons, ih (fun x hx => h x (List.mem_cons_of_mem _ hx)), hstep]

/-- C3 (amended): for every artifact type flagged `raw_data`,
`parse_raw_stdout_data` returns the empty list on empty input and on
non-string input; for the five token-count-guarded parsers (`arpTableRaw`,
`blockDevices`, `disk_usage`, `fdisk`, `filesystemStats`) an input whose
every line is a single token yields the empty list; and on such
single-token input no parser raises.  (The original universal claim fails:
`connectionTracking` and `filesystemTypes` deliberately emit one record per
single-token line, and `blockDevices` raises on a malformed multi-token
size field — see the counterexample.) -/
theorem rawParsersGuarded (t : String) (h : requiresRawDataParsing t = true)
    (v : PyVal) (hv : ∀ u : String, v ≠ PyVal.str u)
    (s : String) (hs : ∀ l ∈ pyLines s, (pySplitWs l).length = 1) :
    parseRawStdoutData (PyVal.str "") t = some [] ∧
    parseRawStdoutData v t = some [] ∧
    ((t = "arpTableRaw" ∨ t = "blockDevices" ∨ t = "disk_usage" ∨ t = "fdisk" ∨
        t = "filesystemStats") → parseRawStdoutData (PyVal.str s) t = some []) ∧
    (parseRawStdoutData (PyVal.str s) t).isSome = true := by
  refine ⟨rfl, ?_, ?_, ?_⟩
  · cases v with
    | str u => exact absurd rfl (hv u)
    | none => rfl
    | bool b => rfl
    | int n => rfl
    | float q => rfl
    | list xs => rfl
    | dict xs => rfl
    | other r => rfl
  · intro h5
    by_cases hse : s = ""
    · subst hse
      rcases h5 with rfl | rfl | rfl | rfl | rfl <;> rfl
    · rcases h5 with rfl | rfl | rfl | rfl | rfl
      · simp [parseRawStdoutData, hse, foldl_arp_single (pyLines s) hs]
      · simp [parseRawStdoutData, hse, foldl_block_single (pyLines s) hs]
      · simp [parseRawStdoutData, hse, foldl_diskUsage_single (pyLines s) hs]
      · simp [parseRawStdoutData, hse,
          foldl_fdisk_short (pyLines s) (fun l hl => by rw [hs l hl]; omega)]
      · simp [parseRawStdoutData, hse, foldl_fsStats_single (pyLines s) hs]
  · rcases rawType_cases t h with rfl | rfl | rfl | rfl | rfl | rfl | rfl
    · by_cases hse : s = "" <;> simp [parseRawStdoutData, hse]
    · by_cases hse : s = "" <;>
        simp [parseRawStdoutData, hse, foldl_block_single (pyLines s) hs]
    · by_cases hse : s = "" <;> simp [parseRawStdoutData, hse]
    · by_cases hse : s = "" <;> simp [parseRawStdoutData, hse]
    · by_cases hse : s = "" <;> simp [parseRawStdoutData, hse]
    · by_cases hse : s = "" <;> simp [parseRawStdoutData, hse]
    · by_cases hse : s = "" <;> simp [parseRawStdoutData, hse]

/-- C3 counterexample: two raw-flagged types violate the claim as stated —
`connectionTracking` turns the single-token input `"x"` into a record
instead of the empty list, and `blockDevices` raises (`float()`
`ValueError`, modelled as `Option.none`) on a six-token line whose size
token `"xG"` has a non-numeric prefix. -/
theorem rawParsers_counterexample :
    requiresRawDataParsing "connectionTracking" = true ∧
    pyLines "x" = ["x"] ∧ (pySplitWs "x").length = 1 ∧
    parseRawStdoutData (PyVal.str "x") "connectionTracking" =
      some [[("raw_line", PyVal.str "x")]] ∧
    ¬ (parseRawStdoutData (PyVal.str "x") "connectionTracking" = some []) ∧
    requiresRawDataParsing "blockDevices" = true ∧
    parseRawStdoutData (PyVal.str "a b c xG e f") "blockDevices" = Option.none :=
  ⟨rfl, rfl, rfl, rfl,
   fun hEq => by
     have h2 : (some [[("raw_line", PyVal.str "x")]] : Option (List PyRecord)) = some [] := hEq
     simp at h2,
   rfl, rfl⟩

/-- Witness for C3: the guarded behaviour at a concrete type and input. -/
theorem rawParsersGuarded_witness :
    parseRawStdoutData (PyVal.str "x") "arpTableRaw" = some [] :=
  (rawParsersGuarded "arpTableRaw" rfl (PyVal.int 5) (fun u hu => PyVal.noConfusion hu)
      "x" (by decide)).2.2.1 (Or.inl rfl)

theorem fdiskPartitionLine_snd_cases (a : List PyRecord) (parts : List String) :
    fdiskPartitionLine [] a parts = ([], a) ∨
    ∃ rec, fdiskPartitionLine [] a parts = ([], a ++ [rec]) ∧
      rec.map Prod.fst = fdiskPartitionKeys := by
  simp only [fdiskPartitionLine]
  split_ifs <;> first | (exact Or.inl rfl) | (exact Or.inr ⟨_, rfl, rfl⟩)

theorem foldl_fdisk_nometa (lines : List String)
    (h : ∀ l ∈ lines, fdiskMetaFree l = true) :
    ∀ acc : List PyRecord, (∀ r ∈ acc, r.map Prod.fst = fdiskPartitionKeys) →
      ∀ r ∈ (lines.foldl fdiskStep ([], acc)).2, r.map Prod.fst = fdiskPartitionKeys := by
  induction lines with
  | nil => intro acc hacc r hr; exact hacc r hr
  | cons l ls ih =>
      intro acc hacc
      have hl := h l (List.mem_cons_self _ _)
      simp only [fdiskMetaFree, Bool.and_eq_true, Bool.not_eq_true'] at hl
      obtain ⟨⟨⟨h1, h2⟩, h3⟩, h4⟩ := hl
      have hstep : fdiskStep ([], acc) l = ([], acc) ∨
          ∃ rec, fdiskStep ([], acc) l = ([], acc ++ [rec]) ∧
            rec.map Prod.fst = fdiskPartitionKeys := by
        simp only [fdiskStep, h1, h2, h3, h4, Bool.false_eq_true, if_false]
        split_ifs with h5
        · exact fdiskPartitionLine_snd_cases acc (pySplitWs l)
        · exact Or.inl rfl
      rw [List.foldl_cons]
      rcases hstep with heq | ⟨rec, heq, hkeys⟩
      · rw [heq]
        exact ih (fun x hx => h x (List.mem_cons_of_mem _ hx)) acc hacc
      · rw [heq]
        refine ih (fun x hx => h x (List.mem_cons_of_mem _ hx)) (acc ++ [rec]) ?_
        intro r hr
        rcases List.mem_append.mp hr with hr | hr
        · exact hacc r hr
        · rw [List.mem_singleton.mp hr]
          exact hkeys

/-- C10 (amended): the fdisk parser never raises, for any input value and
any line order; metadata lines occurring before any `Disk /` header are
absorbed into the (initially empty) current-disk record — visible in the
closed conjunct, where the `sector_size` of a leading metadata line
reappears inside the subsequent partition record; and a partition line
preceded by NO `Disk /` header and NO metadata line (an input all of whose
lines are free of the four disk-metadata prefixes) produces a record with
exactly the eight partition keys and none of the disk metadata keys. -/
theorem fdiskParserSafety (v : PyVal) (s : String)
    (hmf : ∀ l ∈ pyLines s, fdiskMetaFree l = true) :
    (parseRawStdoutData v "fdisk").isSome = true ∧
    (∀ recs, parseRawStdoutData (PyVal.str s) "fdisk" = some recs →
        ∀ r ∈ recs, r.map Prod.fst = fdiskPartitionKeys) ∧
    parseRawStdoutData
        (PyVal.str "Sector size: 512 bytes\n/dev/sda1 * 2048 1050623 1048576 512M 83 Linux")
        "fdisk" =
      some [[("sector_size", PyVal.str "512 bytes"),
             ("device", PyVal.str "/dev/sda1"), ("boot_flag", PyVal.bool true),
             ("start_sector", PyVal.int 2048), ("end_sector", PyVal.int 1050623),
             ("sectors", PyVal.int 1048576), ("size", PyVal.str "512M"),
             ("partition_id", PyVal.str "83"), ("partition_type", PyVal.str "Linux")]] := by
  refine ⟨?_, ?_, rfl⟩
  · cases v with
    | str u => by_cases hu : u = "" <;> simp [parseRawStdoutData, hu]
    | none => rfl
    | bool b => rfl
    | int n => rfl
    | float q => rfl
    | list xs => rfl
    | dict xs => rfl
    | other r => rfl
  · intro recs hrecs r hr
    by_cases hse : s = ""
    · subst hse
      have h0 : (some [] : Option (List PyRecord)) = some recs := hrecs
      obtain rfl : recs = [] := (Option.some.inj h0).symm
      simp at hr
    · have hp : parseRawStdoutData (PyVal.str s) "fdisk" =
          some ((pyLines s).foldl fdiskStep ([], [])).2 := by
        simp [parseRawStdoutData, hse]
      rw [hp] at hrecs
      obtain rfl : recs = ((pyLines s).foldl fdiskStep ([], [])).2 :=
        (Option.some.inj hrecs).symm
      exact foldl_fdisk_nometa (pyLines s) hmf [] (by simp) r hr

/-- C10 counterexample: with a `Sector size` metadata line preceding it (and
no `Disk /` header anywhere), the partition record still carries the disk
metadata key `sector_size` with the absorbed value — refuting the claim
that a partition record occurring before any `Disk /` header contains none
of the disk metadata keys. -/
theorem fdiskParser_counterexample :
    alistGet
        (((parseRawStdoutData
            (PyVal.str "Sector size: 512 bytes\n/dev/sda1 * 2048 1050623 1048576 512M 83 Linux")
            "fdisk").getD []).headD [])
        "sector_size" = some (PyVal.str "512 bytes") ∧
    ¬ ((((parseRawStdoutData
            (PyVal.str "Sector size: 512 bytes\n/dev/sda1 * 2048 1050623 1048576 512M 83 Linux")
            "fdisk").getD []).headD []).map Prod.fst = fdiskPartitionKeys) :=
  ⟨rfl, by decide⟩

/-- Witness for C10: totality at a non-string input, with the metadata-free
hypothesis discharged on a concrete partition-only input. -/
theorem fdiskParserSafety_witness :
    (parseRawStdoutData (PyVal.int 7) "fdisk").isSome = true :=
  (fdiskParserSafety (PyVal.int 7) "/dev/sda1 2048 1050623 1048576 512M 83" (by decide)).1

/-! ## Lemmas for the raw-data insert loop -/

theorem countOkFrom_zero (ok : Nat → Bool) (start : Nat) : countOkFrom ok start 0 = 0 := rfl

theorem countOkFrom_succ (ok : Nat → Bool) (start n : Nat) :
    countOkFrom ok start (n + 1) =
      (if ok start then 1 else 0) + countOkFrom ok (start + 1) n := by
  unfold countOkFrom
  rw [List.range_succ_eq_map, List.filter_cons, List.filter_map]
  have hcong : List.filter ((fun i => ok (start + i)) ∘ Nat.succ) (List.range n) =
      List.filter (fun i => ok (start + 1 + i)) (List.range n) := by
    apply List.filter_congr
    intro i _
    simp only [Function.comp]
    have harith : start + Nat.succ i = start + 1 + i := by omega
    rw [harith]
  rw [hcong]
  by_cases hok : ok start <;> simp [hok, List.length_map] <;> omega

theorem countOkFrom_le (ok : Nat → Bool) (start n : Nat) : countOkFrom ok start n ≤ n := by
  unfold countOkFrom
  calc ((List.range n).filter (fun i => ok (start + i))).length
      ≤ (List.range n).length := List.length_filter_le _ _
    _ = n := List.length_range n

theorem rawInsertLoop_spec (t : String) (now : PyVal) (ok : Nat → Bool) :
    ∀ (recs : List PyRecord) (st : LoopState),
      (∀ r ∈ recs,
        (prepareRecordForInsertion (filterRecordFields r t) (some t)).isSome = true) →
      ∃ st', rawInsertLoop t now ok recs st = .ok st' ∧
        st'.attempts.length = st.attempts.length + recs.length ∧
        st'.inserted = st.inserted + countOkFrom ok st.attempts.length recs.length ∧
        st'.errors = st.errors + (recs.length - countOkFrom ok st.attempts.length recs.length) := by
  intro recs
  induction recs with
  | nil =>
      intro st _
      exact ⟨st, rfl, by simp [countOkFrom], by simp [countOkFrom], by simp [countOkFrom]⟩
  | cons r rest ih =>
      intro st hprep
      have hr := hprep r (List.mem_cons_self _ _)
      obtain ⟨prep, hpeq⟩ := Option.isSome_iff_exists.mp hr
      have htail : ∀ x ∈ rest,
          (prepareRecordForInsertion (filterRecordFields x t) (some t)).isSome = true :=
        fun x hx => hprep x (List.mem_cons_of_mem _ hx)
      have hcnt := countOkFrom_succ ok st.attempts.length rest.length
      have hle := countOkFrom_le ok (st.attempts.length + 1) rest.length
      by_cases hok : ok st.attempts.length
      · obtain ⟨st', heq, h1, h2, h3⟩ :=
          ih ⟨st.inserted + 1, st.errors,
            st.attempts ++ [dictSet (dictSet prep "created_at" now) "artifact_type"
              (PyVal.str t)]⟩ htail
        dsimp only at h1 h2 h3
        simp [List.length_append] at h1 h2 h3
        refine ⟨st', ?_, ?_, ?_, ?_⟩
        · simp only [rawInsertLoop, hpeq, hok, if_true]
          exact heq
        · simp [h1] <;> omega
        · simp [h2, hcnt, hok] <;> omega
        · simp [h3, hcnt, hok] <;> omega
      · obtain ⟨st', heq, h1, h2, h3⟩ :=
          ih ⟨st.inserted, st.errors + 1,
            st.attempts ++ [dictSet (dictSet prep "created_at" now) "artifact_type"
              (PyVal.str t)]⟩ htail
        dsimp only at h1 h2 h3
        simp [List.length_append] at h1 h2 h3
        refine ⟨st', ?_, ?_, ?_, ?_⟩
        · simp only [rawInsertLoop, hpeq, hok, if_false]
          exact heq
        · simp [h1] <;> omega
        · simp [h2, hcnt, hok] <;> omega
        · simp [h3, hcnt, hok] <;> omega

theorem prepLoop_isSome (l : PyRecord) (h : ∀ kv ∈ l, (prepareValue kv.2).isSome = true) :
    (prepLoop l).isSome = true := by
  induction l with
  | nil => rfl
  | cons kv rest ih =>
      obtain ⟨v, hv⟩ := Option.isSome_iff_exists.mp (h kv (List.mem_cons_self _ _))
      obtain ⟨es, hes⟩ :=
        Option.isSome_iff_exists.mp (ih (fun x hx => h x (List.mem_cons_of_mem _ hx)))
      simp [prepLoop, prepEntry, hv, hes]

theorem prepare_isSome (r : PyRecord) (ty : Option String)
    (h : ∀ kv ∈ r, (prepareValue kv.2).isSome = true) :
    (prepareRecordForInsertion r ty).isSome = true := by
  cases ty with
  | none => exact prepLoop_isSome r h
  | some t =>
      by_cases ht : t = ""
      · subst ht
        rw [prepare_empty_eq]
        exact prepLoop_isSome r h
      · rw [prepare_some_eq r t ht]
        exact prepLoop_isSome _ (fun kv hkv => h kv (filterRecordFields_subset r t hkv))

/-- C5: for a raw_data-flagged artifact type, `_process_structured_data`
dispatches to the raw-data handler; a dict whose `stdout` is absent or the
empty string, and any data that is neither dict nor string, give a failure
result with zero inserted records and one error; a nonempty stdout whose
parse yields no records is a SUCCESSFUL no-op with `total_records = 0`,
`inserted_records = 0`, `errors = 0`; and when records do parse, every
record is attempted — each insert failure only increments the error
counter, so `total = |records|`, `inserted` = number of successful
inserts, `errors = total − inserted`, and the number of insert attempts
equals `total`. -/
theorem rawDataErrorHandling (t : String) (h : requiresRawDataParsing t = true)
    (tn : String) (now : PyVal) (ok : Nat → Bool) :
    (∀ data, processStructuredData data tn t now ok = processRawData data t now ok) ∧
    (∀ d : PyRecord,
        (alistGet d "stdout" = Option.none ∨ alistGet d "stdout" = some (PyVal.str "")) →
        processRawData (PyVal.dict d) t now ok =
          ⟨false, "No stdout content found for " ++ t, ⟨0, 0, 1⟩, []⟩) ∧
    (∀ v : PyVal, (∀ xs : List (String × PyVal), v ≠ PyVal.dict xs) →
        (∀ u : String, v ≠ PyVal.str u) →
        processRawData v t now ok =
          ⟨false, "No stdout content found for " ++ t, ⟨0, 0, 1⟩, []⟩) ∧
    (∀ s : String, s ≠ "" → parseRawStdoutData (PyVal.str s) t = some [] →
        processRawData (PyVal.str s) t now ok =
          ⟨true, "No parseable data found in " ++ t, ⟨0, 0, 0⟩, []⟩) ∧
    (∀ (s : String) (recs : List PyRecord), s ≠ "" →
        parseRawStdoutData (PyVal.str s) t = some recs → recs ≠ [] →
        (∀ r ∈ recs,
          (prepareRecordForInsertion (filterRecordFields r t) (some t)).isSome = true) →
        (processRawData (PyVal.str s) t now ok).stats.total = recs.length ∧
        (processRawData (PyVal.str s) t now ok).stats.inserted =
          countOkFrom ok 0 recs.length ∧
        (processRawData (PyVal.str s) t now ok).stats.errors =
          recs.length - countOkFrom ok 0 recs.length ∧
        (processRawData (PyVal.str s) t now ok).attempts.length = recs.length) := by
  refine ⟨?_, ?_, ?_, ?_, ?_⟩
  · intro data
    simp [processStructuredData, h]
  · intro d hd
    rcases hd with hd | hd <;> simp [processRawData, hd, pyTruthy]
  · intro v hvd hvs
    cases v with
    | dict xs => exact absurd rfl (hvd xs)
    | str u => exact absurd rfl (hvs u)
    | none => rfl
    | bool b => cases b <;> rfl
    | int n => rfl
    | float q => rfl
    | list xs => rfl
    | other r => rfl
  · intro s hne hparse
    simp [processRawData, pyTruthy, hne, hparse]
  · intro s recs hne hparse hnonempty hprep
    obtain ⟨st', hloop, h1, h2, h3⟩ := rawInsertLoop_spec t now ok recs ⟨0, 0, []⟩ hprep
    dsimp only at h1 h2 h3
    simp only [List.length_nil, Nat.zero_add] at h1 h2 h3
    cases recs with
    | nil => exact absurd rfl hnonempty
    | cons r rest =>
        have hout : processRawData (PyVal.str s) t now ok =
            (if st'.inserted > 0 then
              (⟨true, "Processed " ++ toString st'.inserted ++ "/" ++
                  toString (r :: rest).length ++ " records for " ++ t,
                ⟨(r :: rest).length, st'.inserted, st'.errors⟩, st'.attempts⟩ : ProcOut)
            else
              ⟨false, "Failed to insert any records for " ++ t,
                ⟨(r :: rest).length, st'.inserted, st'.errors⟩, st'.attempts⟩) := by
          simp [processRawData, pyTruthy, hne, hparse, hloop]
        rw [hout]
        split <;> simp [h1, h2, h3]
  
/-- Witness for C5: the successful no-op at a concrete raw type whose
stdout parses to zero records, through the full structured-data dispatch. -/
theorem rawDataErrorHandling_witness :
    processRawData (PyVal.str "x y z") "arpTableRaw" (PyVal.other "ts") (fun _ => true) =
      ⟨true, "No parseable data found in " ++ "arpTableRaw", ⟨0, 0, 0⟩, []⟩ :=
  (rawDataErrorHandling "arpTableRaw" rfl "arp_table_raw" (PyVal.other "ts")
      (fun _ => true)).2.2.2.1 "x y z" (by decide) rfl

/-- C6: the normalizer's per-value mapping (applied after field filtering)
is: `None` stays `None`; a dict or list value is replaced by its
JSON-encoded text; booleans and numeric scalars pass through unchanged; a
string longer than 10,000 characters is replaced by exactly its first
10,000 characters with no suffix marker (a 10,001-character string is
stored as its first 10,000 characters; shorter strings are unchanged); any
other value becomes its generic string representation; and on any record
whose values all normalise (in particular every JSON-parsed record) the
normalizer returns without raising. -/
theorem normalizerValueMapping (s10001 : String) (h10001 : s10001.length = 10001) :
    prepareValue PyVal.none = some PyVal.none ∧
    (∀ b, prepareValue (PyVal.bool b) = some (PyVal.bool b)) ∧
    (∀ n : Int, prepareValue (PyVal.int n) = some (PyVal.int n)) ∧
    (∀ q : Rat, prepareValue (PyVal.float q) = some (PyVal.float q)) ∧
    (∀ s : String, s.length ≤ 10000 → prepareValue (PyVal.str s) = some (PyVal.str s)) ∧
    (∀ s : String, s.length > 10000 →
        prepareValue (PyVal.str s) = some (PyVal.str (pySliceTo s 10000)) ∧
        (pySliceTo s 10000).length = 10000) ∧
    (prepareValue (PyVal.str s10001) = some (PyVal.str (pySliceTo s10001 10000)) ∧
      (pySliceTo s10001 10000).length = 10000) ∧
    (∀ xs, prepareValue (PyVal.dict xs) = (jsonDumps (PyVal.dict xs)).map PyVal.str) ∧
    (∀ xs, prepareValue (PyVal.list xs) = (jsonDumps (PyVal.list xs)).map PyVal.str) ∧
    (∀ rep, prepareValue (PyVal.other rep) = some (PyVal.str rep)) ∧
    (∀ (r : PyRecord) (ty : Option String),
        (∀ kv ∈ r, (prepareValue kv.2).isSome = true) →
        (prepareRecordForInsertion r ty).isSome = true) := by
  refine ⟨rfl, fun b => rfl, fun n => rfl, fun q => rfl, ?_, ?_, ?_, fun xs => rfl,
    fun xs => rfl, fun rep => rfl, prepare_isSome⟩
  · intro s hs
    have : ¬ s.length > 10000 := by omega
    simp [prepareValue, this]
  · intro s hs
    constructor
    · simp [prepareValue, hs]
    · rw [pySliceTo_length]
      omega
  · constructor
    · have hgt : s10001.length > 10000 := by omega
      simp [prepareValue, hgt]
    · rw [pySliceTo_length]
      omega

/-- Witness for C6: a 10,001-character string is clipped to its first
10,000 characters. -/
theorem normalizerValueMapping_witness :
    prepareValue (PyVal.str (String.mk (List.replicate 10001 'a'))) =
      some (PyVal.str (pySliceTo (String.mk (List.replicate 10001 'a')) 10000)) ∧
    (pySliceTo (String.mk (List.replicate 10001 'a')) 10000).length = 10000 :=
  (normalizerValueMapping (String.mk (List.replicate 10001 'a'))
      (by show (List.replicate 10001 'a').length = 10001
          exact List.length_replicate _ _)).2.2.2.2.2.2.1
